import Mathlib

/-
Verification of the stock-scanner indicator and signal-evaluation engine
(src/app.py) over a shallow embedding.

Modelling conventions:
* A raw OHLCV frame is a `RawDF`: a row count plus five optional columns
  (an absent column models a frame that lacks it; accessing an absent
  column in the Python source raises KeyError, which the source catches).
  Per the data model, cells of present columns are finite reals, embedded
  as exact rationals.
* The floating NaN that pandas uses for undefined entries is embedded as
  `Option`: `none` is NaN/undefined.  Comparisons against `none` are
  `false`, mirroring IEEE comparisons with NaN; arithmetic on `none`
  yields `none`.  Division by an exact zero divisor is modelled as `none`;
  the source guards every division that can see an exact zero with
  `replace(0, nan)` except ratios whose denominators are positive under
  the data model (positive Close), so the convention is not observable.
* pandas `rolling(w, min_periods=1)` aggregates the window of available
  points; `rolling(w)` (no min_periods) is undefined until w points
  exist.  `ewm(span=s, adjust=False)` is the recurrence
  y0 = x0, y = (1-a) * prev + a * x with a = 2/(s+1).
* The Bollinger standard deviation is the sample standard deviation
  (pandas default ddof = 1), a real square root of an exact rational
  variance; only the Bollinger columns live in ℝ.
* Strategy labels are embedded as the enumeration `Strategy` (A..J in
  catalogue order); match reason strings carry no logic and are omitted,
  so a match list is the ordered list of fired strategy identifiers.
-/

/-- Arithmetic mean of a list of rationals (pandas mean of a window). -/
def mean (l : List ℚ) : ℚ := l.sum / l.length

/-- Trailing window of width at most `w` ending at index `i`:
the last `min (i+1) w` elements of `xs.take (i+1)`. -/
def windowAt (w : Nat) (xs : List ℚ) (i : Nat) : List ℚ :=
  (xs.take (i + 1)).drop (i + 1 - w)

/-- Sample variance of a window (pandas `std(ddof=1)` squared); the
division by `length - 1` is only meaningful for two or more points, and
every use is guarded accordingly. -/
def svar (l : List ℚ) : ℚ :=
  (l.map (fun x => (x - mean l) ^ 2)).sum / ((l.length : ℚ) - 1)

/-- `safe_rolling_mean(series, window)` from the source:
`series.rolling(window=window, min_periods=1).mean()`, i.e. the adaptive
mean over however many of the last `window` points exist (at least 1).
Defined at every in-range index. -/
def safe_rolling_mean (xs : List ℚ) (w : Nat) (i : Nat) : Option ℚ :=
  if i < xs.length then some (mean (windowAt w xs i)) else none

/-- Rolling mean with `min_periods` equal to the window (pandas default,
used for the RSI gain/loss averages): undefined until `w` points exist. -/
def strictMeanAt (w : Nat) (xs : List ℚ) (i : Nat) : Option ℚ :=
  if w ≤ i + 1 ∧ i < xs.length then some (mean (windowAt w xs i)) else none

/-- Rolling sum with `min_periods` equal to the window (pandas default,
used for the MFI flow sums): undefined until `w` points exist. -/
def strictSumAt (w : Nat) (xs : List ℚ) (i : Nat) : Option ℚ :=
  if w ≤ i + 1 ∧ i < xs.length then some (windowAt w xs i).sum else none

/-- `delta.where(delta > 0, 0)` for `delta = Close.diff(1)`: the positive
part of the one-period difference, with the undefined first difference
replaced by 0 (a NaN condition selects the replacement value). -/
def gains (c : List ℚ) : List ℚ :=
  0 :: List.zipWith (fun prev cur => if prev < cur then cur - prev else 0) c c.tail

/-- `(-delta).where(delta < 0, 0)`: the magnitude of the negative part of
the one-period Close difference. -/
def losses (c : List ℚ) : List ℚ :=
  0 :: List.zipWith (fun prev cur => if cur < prev then prev - cur else 0) c c.tail

/-- `rs = gain / loss.replace(0, np.nan)`: the relative strength, undefined
while either 14-period average is undefined and when the average loss is
exactly zero. -/
def rsAt (c : List ℚ) (i : Nat) : Option ℚ :=
  match strictMeanAt 14 (gains c) i, strictMeanAt 14 (losses c) i with
  | some g, some l => if l = 0 then none else some (g / l)
  | _, _ => none

/-- `RSI = 100 - (100 / (1 + rs))`. -/
def RSIat (c : List ℚ) (i : Nat) : Option ℚ :=
  (rsAt c i).map (fun r => 100 - 100 / (1 + r))

/-- `typical_price = (High + Low + Close) / 3`. -/
def tps (high low close : List ℚ) : List ℚ :=
  List.zipWith (fun hl c => (hl.1 + hl.2 + c) / 3) (high.zip low) close

/-- `money_flow = typical_price * Volume`. -/
def mfs (high low close vol : List ℚ) : List ℚ :=
  List.zipWith (fun t v => t * v) (tps high low close) vol

/-- `money_flow.where(typical_price.diff() > 0, 0)`: money flow kept where
the typical price rose, else 0 (the undefined first diff selects 0). -/
def posflows (high low close vol : List ℚ) : List ℚ :=
  0 :: List.zipWith (fun prev pm => if prev < pm.1 then pm.2 else 0)
    (tps high low close) (((tps high low close).zip (mfs high low close vol)).tail)

/-- `money_flow.where(typical_price.diff() < 0, 0)`: money flow kept where
the typical price fell, else 0. -/
def negflows (high low close vol : List ℚ) : List ℚ :=
  0 :: List.zipWith (fun prev pm => if pm.1 < prev then pm.2 else 0)
    (tps high low close) (((tps high low close).zip (mfs high low close vol)).tail)

/-- 14-period rolling sum of positive money flow. -/
def posSumAt (high low close vol : List ℚ) (i : Nat) : Option ℚ :=
  strictSumAt 14 (posflows high low close vol) i

/-- 14-period rolling sum of negative money flow, then `.abs()`. -/
def negSumAt (high low close vol : List ℚ) (i : Nat) : Option ℚ :=
  (strictSumAt 14 (negflows high low close vol) i).map (fun x => |x|)

/-- `money_ratio = positive_mf / negative_mf.replace(0, np.nan)`. -/
def moneyRatioAt (high low close vol : List ℚ) (i : Nat) : Option ℚ :=
  match posSumAt high low close vol i, negSumAt high low close vol i with
  | some p, some n => if n = 0 then none else some (p / n)
  | _, _ => none

/-- `MFI = 100 - (100 / (1 + money_ratio))`. -/
def MFIat (high low close vol : List ℚ) (i : Nat) : Option ℚ :=
  (moneyRatioAt high low close vol i).map (fun r => 100 - 100 / (1 + r))

/-- `ewm(span, adjust=False).mean()` with weight `a = 2 / (span + 1)`:
seeded at the first value, then `y = (1 - a) * prev + a * x`. -/
def ewmList (a : ℚ) : List ℚ → List ℚ
  | [] => []
  | x :: xs => List.scanl (fun y z => (1 - a) * y + a * z) x xs

/-- `MACD = EMA12(Close) - EMA26(Close)` (spans 12 and 26). -/
def MACDlist (c : List ℚ) : List ℚ :=
  List.zipWith (fun x y => x - y) (ewmList (2 / 13) c) (ewmList (2 / 27) c)

/-- `MACD_Signal = EMA9(MACD)` (span 9). -/
def MACDsignalList (c : List ℚ) : List ℚ := ewmList (2 / 10) (MACDlist c)

/-- Sample variance of the `min_periods=1` rolling window of width 20:
undefined (NaN) when fewer than two points exist, exactly as the pandas
sample standard deviation is. -/
def bbVarAt (xs : List ℚ) (i : Nat) : Option ℚ :=
  if 2 ≤ (windowAt 20 xs i).length ∧ i < xs.length
  then some (svar (windowAt 20 xs i)) else none

/-- `safe_rolling_std(series, 20)` from the source:
`series.rolling(window=20, min_periods=1).std()`, the sample standard
deviation of the available window (its try/except never fires on numeric
input and is not modelled). -/
noncomputable def safe_rolling_std (xs : List ℚ) (i : Nat) : Option ℝ :=
  (bbVarAt xs i).map (fun v => Real.sqrt (Rat.cast v))

/-- `std_dev = safe_rolling_std(Close, 20).fillna(0)`. -/
noncomputable def bbStdAt (xs : List ℚ) (i : Nat) : ℝ :=
  (safe_rolling_std xs i).getD 0

/-- `BB_Upper = BB_Mid + (std_dev * 2)` with `BB_Mid = safe_rolling_mean(Close, 20)`. -/
noncomputable def BBUpperAt (xs : List ℚ) (i : Nat) : Option ℝ :=
  (safe_rolling_mean xs 20 i).map (fun m => (m : ℝ) + bbStdAt xs i * 2)

/-- `BB_Lower = BB_Mid - (std_dev * 2)`. -/
noncomputable def BBLowerAt (xs : List ℚ) (i : Nat) : Option ℝ :=
  (safe_rolling_mean xs 20 i).map (fun m => (m : ℝ) - bbStdAt xs i * 2)

/-- `Disparity = (Close / MA20) * 100`.  The divisor is the adaptive MA20,
zero only for data outside the positive-Close data model; a zero divisor
is modelled as undefined. -/
def DisparityAt (xs : List ℚ) (i : Nat) : Option ℚ :=
  match safe_rolling_mean xs 20 i, xs.get? i with
  | some m, some c => if m = 0 then none else some (c / m * 100)
  | _, _ => none

/-- The strategy catalogue labels A..J, in the catalogue order of the
source (its string labels carry no other information). -/
inductive Strategy
  | A | B | C | D | E | F | G | H | I | J
deriving DecidableEq

/-- A column of a frame: a cell per row index, `none` for NaN or for an
out-of-range row. -/
abbrev Col := Nat → Option ℚ

/-- A raw OHLCV frame as fetched for one symbol: a row count and the five
columns, each possibly absent. -/
structure RawDF where
  nrows : Nat
  colOpen : Option (List ℚ)
  colHigh : Option (List ℚ)
  colLow : Option (List ℚ)
  colClose : Option (List ℚ)
  colVolume : Option (List ℚ)

/-- The frame produced by `analyze_stock` for rule evaluation: the raw
columns plus the derived indicator columns, each possibly absent (all
derived columns are absent on the raw fallback frame).  The Bollinger
band cells are real numbers (they involve a square root). -/
structure AnalyzedDF where
  nrows : Nat
  cOpen : Option Col
  cHigh : Option Col
  cLow : Option Col
  cClose : Option Col
  cVolume : Option Col
  cMA5 : Option Col
  cMA20 : Option Col
  cMA60 : Option Col
  cMA120 : Option Col
  cRSI : Option Col
  cMFI : Option Col
  cMACD : Option Col
  cMACDSignal : Option Col
  cBBMid : Option Col
  cBBUpper : Option (Nat → Option ℝ)
  cBBLower : Option (Nat → Option ℝ)
  cVolMA20 : Option Col
  cDisparity : Option Col

/-- Read a cell from a possibly absent column (`row.get(name, np.nan)`:
an absent column or row reads as NaN). -/
def getCol {α : Type} (oc : Option (Nat → Option α)) (i : Nat) : Option α :=
  match oc with
  | some f => f i
  | none => none

/-- View a fully defined list column as a cell function. -/
def listCol (xs : List ℚ) : Col := fun i => xs.get? i

/-- `calculate_indicators(df)`: adds the derived columns to a copy of the
frame.  The try block reads the Close, High, Low and Volume columns; a
missing one raises, the handler returns None — modelled as `none`.
On success every derived column below is added; no other derived column
(in particular no 252-period rolling high/low) is computed. -/
noncomputable def calculate_indicators (df : RawDF) : Option AnalyzedDF :=
  match df.colClose, df.colHigh, df.colLow, df.colVolume with
  | some c, some h, some l, some v =>
    some
      { nrows := df.nrows
        cOpen := df.colOpen.map listCol
        cHigh := some (listCol h)
        cLow := some (listCol l)
        cClose := some (listCol c)
        cVolume := some (listCol v)
        cMA5 := some (fun i => safe_rolling_mean c 5 i)
        cMA20 := some (fun i => safe_rolling_mean c 20 i)
        cMA60 := some (fun i => safe_rolling_mean c 60 i)
        cMA120 := some (fun i => safe_rolling_mean c 120 i)
        cRSI := some (fun i => RSIat c i)
        cMFI := some (fun i => MFIat h l c v i)
        cMACD := some (fun i => (MACDlist c).get? i)
        cMACDSignal := some (fun i => (MACDsignalList c).get? i)
        cBBMid := some (fun i => safe_rolling_mean c 20 i)
        cBBUpper := some (fun i => BBUpperAt c i)
        cBBLower := some (fun i => BBLowerAt c i)
        cVolMA20 := some (fun i => safe_rolling_mean v 20 i)
        cDisparity := some (fun i => DisparityAt c i) }
  | _, _, _, _ => none

/-- `df.copy()` fallback used when indicator computation fails: the raw
columns only, no derived columns. -/
def rawAnalyzed (df : RawDF) : AnalyzedDF :=
  { nrows := df.nrows
    cOpen := df.colOpen.map listCol
    cHigh := df.colHigh.map listCol
    cLow := df.colLow.map listCol
    cClose := df.colClose.map listCol
    cVolume := df.colVolume.map listCol
    cMA5 := none, cMA20 := none, cMA60 := none, cMA120 := none
    cRSI := none, cMFI := none, cMACD := none, cMACDSignal := none
    cBBMid := none, cBBUpper := none, cBBLower := none
    cVolMA20 := none, cDisparity := none }

/-- NaN-style comparison on possibly undefined values: strictly greater,
false whenever either side is undefined. -/
def ogt (x y : Option ℚ) : Bool :=
  match x, y with
  | some a, some b => decide (b < a)
  | _, _ => false

/-- NaN-style comparison: strictly less, false on undefined. -/
def olt (x y : Option ℚ) : Bool :=
  match x, y with
  | some a, some b => decide (a < b)
  | _, _ => false

/-- NaN-style comparison: greater or equal, false on undefined. -/
def oge (x y : Option ℚ) : Bool :=
  match x, y with
  | some a, some b => decide (b ≤ a)
  | _, _ => false

/-- NaN-propagating subtraction. -/
def osub (x y : Option ℚ) : Option ℚ :=
  match x, y with
  | some a, some b => some (a - b)
  | _, _ => none

/-- NaN-propagating absolute value. -/
def oabs (x : Option ℚ) : Option ℚ := x.map (fun a => |a|)

/-- NaN-propagating division (an exact zero divisor yields undefined; see
the conventions at the top of the file). -/
def odiv (x y : Option ℚ) : Option ℚ :=
  match x, y with
  | some a, some b => if b = 0 then none else some (a / b)
  | _, _ => none

/-- pandas `Series.min()` with the default `skipna=True`: the minimum of
the defined entries, NaN only when no entry is defined. -/
def skipnaMin (l : List (Option ℚ)) : Option ℚ :=
  match l.filterMap id with
  | [] => none
  | x :: xs => some (xs.foldl min x)

/-- Strategy A (volume breakout): Volume and VolMA20 defined,
`Volume > VolMA20 * 1.5` and `Close > Open` (the percentage change in the
reason string does not gate the match). -/
def fireA (tVolume tVolMA20 tClose tOpen : Option ℚ) : Bool :=
  match tVolume, tVolMA20 with
  | some v, some m => decide (m * (3 / 2) < v) && ogt tClose tOpen
  | _, _ => false

/-- Strategy B (MA20/MA60 golden cross): all four values defined,
today `MA20 > MA60` and yesterday `MA20 <= MA60`. -/
def fireB (t20 t60 y20 y60 : Option ℚ) : Bool :=
  match t20, t60, y20, y60 with
  | some a, some b, some ya, some yb => decide (b < a) && decide (ya ≤ yb)
  | _, _, _, _ => false

/-- Strategy C (RSI oversold rebound): both RSI values defined, yesterday
`RSI <= 30`, today RSI above yesterday, and `Close > Open`. -/
def fireC (tRSI yRSI tClose tOpen : Option ℚ) : Bool :=
  match tRSI, yRSI with
  | some t, some y => decide (y ≤ 30) && decide (y < t) && ogt tClose tOpen
  | _, _ => false

/-- Strategy D (MACD signal cross): all four values defined, today
`MACD > Signal` and yesterday `MACD <= Signal`. -/
def fireD (tMACD tSignal yMACD ySignal : Option ℚ) : Bool :=
  match tMACD, tSignal, yMACD, ySignal with
  | some a, some b, some ya, some yb => decide (b < a) && decide (ya ≤ yb)
  | _, _, _, _ => false

/-- Strategy E (MFI oversold rebound): both MFI values defined, yesterday
`MFI <= 20`, today MFI above yesterday, and `Close > Open`. -/
def fireE (tMFI yMFI tClose tOpen : Option ℚ) : Bool :=
  match tMFI, yMFI with
  | some t, some y => decide (y ≤ 20) && decide (y < t) && ogt tClose tOpen
  | _, _ => false

/-- Strategy F (Bollinger upper-band breakout): both values defined and
`Close > BB_Upper` (stated over any linear order; the evaluator applies
it to real-valued cells). -/
def fireF {α : Type} [LinearOrder α] (tClose tBBUpper : Option α) : Bool :=
  match tBBUpper, tClose with
  | some u, some c => decide (u < c)
  | _, _ => false

/-- Strategy G (long bullish candle with short wicks): range positive,
body at least 0.7 of the range, and Close up more than 3 percent on
yesterday.  The try/except around it turns a missing cell into no match,
which the NaN-propagating arithmetic already yields. -/
def fireG (tHigh tLow tClose tOpen yClose : Option ℚ) : Bool :=
  ogt (osub tHigh tLow) (some 0) &&
    oge (odiv (oabs (osub tClose tOpen)) (osub tHigh tLow)) (some (7 / 10)) &&
    ogt (osub (odiv tClose yClose) (some 1)) (some (3 / 100))

/-- Price-divergence precondition shared by strategies H and I: today
Close below the skip-NaN minimum of the preceding window Closes, both
defined. -/
def priceDiverging (priceLowNew : Option ℚ) (ws : List (Option ℚ)) : Bool :=
  priceLowNew.isSome && (skipnaMin ws).isSome && olt priceLowNew (skipnaMin ws)

/-- Strategy H (bullish RSI divergence), given the price-divergence
precondition: today RSI and the window minimum defined, today RSI above
the window minimum and below 40. -/
def fireH (isPriceDiv : Bool) (rsiLowNew rsiLowOld : Option ℚ) : Bool :=
  isPriceDiv &&
    match rsiLowNew, rsiLowOld with
    | some nw, some old => decide (old < nw) && decide (nw < 40)
    | _, _ => false

/-- Strategy I (bullish MACD divergence), given the price-divergence
precondition: today MACD and the window minimum defined, today MACD above
the window minimum and itself negative. -/
def fireI (isPriceDiv : Bool) (macdLowNew macdLowOld : Option ℚ) : Bool :=
  isPriceDiv &&
    match macdLowNew, macdLowOld with
    | some nw, some old => decide (old < nw) && decide (nw < 0)
    | _, _ => false

/-- Strategy J (disparity oversold): Disparity defined and at most 95. -/
def fireJ (tDisparity : Option ℚ) : Bool :=
  match tDisparity with
  | some d => decide (d ≤ 95)
  | none => false

/-- Boolean membership test for the selected-strategy list. -/
def selB (sel : List Strategy) (s : Strategy) : Bool := decide (s ∈ sel)

/-- Row indices of `recent_df`, the divergence lookback: the last
`min nrows 6` rows without the last row. -/
def recentIdxs (n : Nat) : List Nat :=
  (List.range (min n 6 - 1)).map (fun k => n - min n 6 + k)

/-- The evaluation of the strategy rules of `analyze_stock` on an analyzed
frame, in catalogue order.  Each rule is guarded by its selection test and
its column-presence tests exactly as in the source; the divergence and
disparity rules run behind the `len(recent_df_full) >= 2` check. -/
noncomputable def rules (da : AnalyzedDF) (sel : List Strategy) : List Strategy :=
  let n := da.nrows
  let today := fun (oc : Option Col) => getCol oc (n - 1)
  let yesterday := fun (oc : Option Col) => getCol oc (n - 2)
  let mA := if selB sel .A && da.cVolMA20.isSome &&
      fireA (today da.cVolume) (today da.cVolMA20) (today da.cClose) (today da.cOpen)
    then [Strategy.A] else []
  let mB := if selB sel .B && da.cMA60.isSome &&
      fireB (today da.cMA20) (today da.cMA60) (yesterday da.cMA20) (yesterday da.cMA60)
    then [Strategy.B] else []
  let mC := if selB sel .C && da.cRSI.isSome &&
      fireC (today da.cRSI) (yesterday da.cRSI) (today da.cClose) (today da.cOpen)
    then [Strategy.C] else []
  let mD := if selB sel .D && da.cMACD.isSome && da.cMACDSignal.isSome &&
      fireD (today da.cMACD) (today da.cMACDSignal) (yesterday da.cMACD) (yesterday da.cMACDSignal)
    then [Strategy.D] else []
  let mE := if selB sel .E && da.cMFI.isSome &&
      fireE (today da.cMFI) (yesterday da.cMFI) (today da.cClose) (today da.cOpen)
    then [Strategy.E] else []
  let mF := if selB sel .F && da.cBBUpper.isSome &&
      fireF ((today da.cClose).map (fun q => (q : ℝ))) (getCol da.cBBUpper (n - 1))
    then [Strategy.F] else []
  let mG := if selB sel .G &&
      fireG (today da.cHigh) (today da.cLow) (today da.cClose) (today da.cOpen) (yesterday da.cClose)
    then [Strategy.G] else []
  let windowVals := fun (oc : Option Col) => (recentIdxs n).map (fun i => getCol oc i)
  let isDiv := priceDiverging (today da.cClose) (windowVals da.cClose)
  let mH := if selB sel .H && da.cRSI.isSome &&
      fireH isDiv (today da.cRSI) (skipnaMin (windowVals da.cRSI))
    then [Strategy.H] else []
  let mI := if selB sel .I && da.cMACD.isSome &&
      fireI isDiv (today da.cMACD) (skipnaMin (windowVals da.cMACD))
    then [Strategy.I] else []
  let mJ := if selB sel .J && da.cDisparity.isSome && fireJ (today da.cDisparity)
    then [Strategy.J] else []
  mA ++ mB ++ mC ++ mD ++ mE ++ mF ++ mG ++
    (if 2 ≤ min n 6 then mH ++ mI ++ mJ else [])

/-- `analyze_stock` without its external fetch: validates the frame,
computes indicators (falling back to a copy of the raw frame when that
fails), requires at least 6 rows, then evaluates the selected rules.
Returns the matched strategies in catalogue order and the analyzed frame. -/
noncomputable def analyze_stock (df : RawDF) (sel : List Strategy) :
    List Strategy × Option AnalyzedDF :=
  if df.nrows < 2 || df.colClose.isNone then ([], none)
  else
    let da := (calculate_indicators df).getD (rawAnalyzed df)
    if da.nrows < 6 then ([], some da) else (rules da sel, some da)

/-- The gain and loss series built from the same Close series have the
same length. -/
theorem gains_length_eq_losses (c : List ℚ) : (gains c).length = (losses c).length := by
  simp [gains, losses]

/-- Length of the trailing window of an in-range index. -/
theorem windowAt_length (w : Nat) (xs : List ℚ) (i : Nat) (hi : i < xs.length) :
    (windowAt w xs i).length = min (i + 1) w := by
  simp only [windowAt, List.length_drop, List.length_take]
  omega

/-- Claim C3 is false of the source: `safe_rolling_mean` passes
`min_periods=1`, the adaptive policy, so MA5 at index 1 of a two-point
series is the mean of the two available points — defined, and an
arithmetic mean over fewer than five points, where the claim requires
undefined. -/
theorem C3_counterexample : safe_rolling_mean [100, 120] 5 1 = some 110 := by
  norm_num [safe_rolling_mean, windowAt, mean]

/-- Claim C3 amended: the moving-average columns follow the adaptive
policy (`min_periods=1`): at every in-range index the MA(w) value is
defined and equals the arithmetic mean of the trailing window of
`min (i+1) w` available points, for every window w. -/
theorem C3_amended (w : Nat) (xs : List ℚ) (i : Nat) (hi : i < xs.length) :
    safe_rolling_mean xs w i = some (mean (windowAt w xs i)) ∧
      (windowAt w xs i).length = min (i + 1) w := by
  exact ⟨by simp [safe_rolling_mean, hi], windowAt_length w xs i hi⟩

/-- Witness for C3 amended at a concrete two-point series. -/
theorem C3_amended_witness :
    safe_rolling_mean [100, 120] 5 1 = some (mean (windowAt 5 [100, 120] 1)) ∧
      (windowAt 5 [100, 120] 1).length = min (1 + 1) 5 :=
  C3_amended 5 [100, 120] 1 (by norm_num)

/-- Claim C6: whenever the 14-period average loss is exactly zero, the
`replace(0, nan)` divisor makes the relative strength undefined, so the
RSI value at that index is undefined (in particular it is not 100). -/
theorem C6_rsi_undefined_on_zero_avg_loss (c : List ℚ) (i : Nat)
    (h : strictMeanAt 14 (losses c) i = some 0) : RSIat c i = none := by
  have hcond : 14 ≤ i + 1 ∧ i < (losses c).length := by
    by_contra hc
    rw [strictMeanAt, if_neg hc] at h
    exact Option.noConfusion h
  have hg : strictMeanAt 14 (gains c) i = some (mean (windowAt 14 (gains c) i)) := by
    have : i < (gains c).length := by rw [gains_length_eq_losses]; exact hcond.2
    simp [strictMeanAt, hcond.1, this]
  simp [RSIat, rsAt, hg, h]

/-- Witness for C6: fifteen equal Closes give a zero average loss at
index 14 and an undefined RSI there. -/
theorem C6_rsi_undefined_witness :
    strictMeanAt 14 (losses [5, 5, 5, 5, 5, 5, 5, 5, 5, 5, 5, 5, 5, 5, 5]) 14 = some 0 ∧
      RSIat [5, 5, 5, 5, 5, 5, 5, 5, 5, 5, 5, 5, 5, 5, 5] 14 = none := by
  have h : strictMeanAt 14 (losses [5, 5, 5, 5, 5, 5, 5, 5, 5, 5, 5, 5, 5, 5, 5]) 14 = some 0 := by
    norm_num [strictMeanAt, losses, windowAt, mean, List.zipWith]
  exact ⟨h, C6_rsi_undefined_on_zero_avg_loss _ 14 h⟩

/-- Claim C5: the golden-cross rule fires exactly on the crossing edge —
it is true iff all four moving-average values are defined, today short
is strictly above long and yesterday short was less than or equal to
long; the MACD crossover rule has the same shape; and in consecutive
evaluations the same rule cannot fire twice in a row (no double fire),
while the definition itself makes every genuine crossing fire (no missed
fire). -/
theorem C5_crossover_edge :
    (∀ t20 t60 y20 y60 : Option ℚ, fireB t20 t60 y20 y60 = true ↔
      ∃ a b ya yb : ℚ, t20 = some a ∧ t60 = some b ∧ y20 = some ya ∧ y60 = some yb ∧
        b < a ∧ ya ≤ yb) ∧
    (∀ tm ts ym ys : Option ℚ, fireD tm ts ym ys = true ↔
      ∃ a b ya yb : ℚ, tm = some a ∧ ts = some b ∧ ym = some ya ∧ ys = some yb ∧
        b < a ∧ ya ≤ yb) ∧
    (∀ s0 l0 s1 l1 s2 l2 : ℚ, fireB (some s1) (some l1) (some s0) (some l0) = true →
      fireB (some s2) (some l2) (some s1) (some l1) = false) ∧
    (∀ s0 l0 s1 l1 s2 l2 : ℚ, fireD (some s1) (some l1) (some s0) (some l0) = true →
      fireD (some s2) (some l2) (some s1) (some l1) = false) := by
  refine ⟨?_, ?_, ?_, ?_⟩
  · intro t20 t60 y20 y60
    cases t20 <;> cases t60 <;> cases y20 <;> cases y60 <;> simp [fireB, and_assoc]
  · intro tm ts ym ys
    cases tm <;> cases ts <;> cases ym <;> cases ys <;> simp [fireD, and_assoc]
  · intro s0 l0 s1 l1 s2 l2 h
    simp only [fireB, Bool.and_eq_true, decide_eq_true_eq] at h
    simp only [fireB, Bool.and_eq_false_iff, decide_eq_false_iff_not, not_le, not_lt]
    exact Or.inr (by simpa using h.1)
  · intro s0 l0 s1 l1 s2 l2 h
    simp only [fireD, Bool.and_eq_true, decide_eq_true_eq] at h
    simp only [fireD, Bool.and_eq_false_iff, decide_eq_false_iff_not, not_le, not_lt]
    exact Or.inr (by simpa using h.1)

/-- Witness for C5: a fire yesterday forbids a fire today at concrete
values. -/
theorem C5_crossover_edge_witness :
    fireB (some 4) (some 1) (some 3) (some 1) = false :=
  C5_crossover_edge.2.2.1 1 1 3 1 4 1 (by norm_num [fireB])

/-- Claim C1 amended: every rule treats an undefined value among the
today/yesterday scalar values read by its condition as no match — never
as zero or as satisfied; in particular the RSI and MFI oversold-rebound
rules never match when either oscillator value is undefined, and an
undefined today Close disables the divergence precondition.  (What the
claim additionally asserted about values read through the divergence
rules' lookback-window minimum is false and is settled by the
counterexample: the skip-NaN minimum ignores undefined window entries.) -/
theorem C1_amended :
    (∀ tv tvm tc tOp : Option ℚ, tv = none ∨ tvm = none ∨ tc = none ∨ tOp = none →
      fireA tv tvm tc tOp = false) ∧
    (∀ a b c d : Option ℚ, a = none ∨ b = none ∨ c = none ∨ d = none →
      fireB a b c d = false) ∧
    (∀ t y tc tOp : Option ℚ, t = none ∨ y = none ∨ tc = none ∨ tOp = none →
      fireC t y tc tOp = false) ∧
    (∀ a b c d : Option ℚ, a = none ∨ b = none ∨ c = none ∨ d = none →
      fireD a b c d = false) ∧
    (∀ t y tc tOp : Option ℚ, t = none ∨ y = none ∨ tc = none ∨ tOp = none →
      fireE t y tc tOp = false) ∧
    (∀ tc tb : Option ℚ, tc = none ∨ tb = none → fireF tc tb = false) ∧
    (∀ tc tb : Option ℝ, tc = none ∨ tb = none → fireF tc tb = false) ∧
    (∀ th tl tc tOp yc : Option ℚ,
      th = none ∨ tl = none ∨ tc = none ∨ tOp = none ∨ yc = none →
      fireG th tl tc tOp yc = false) ∧
    (∀ d : Bool, ∀ ro : Option ℚ, fireH d none ro = false) ∧
    (∀ ws : List (Option ℚ), priceDiverging none ws = false) ∧
    (∀ d : Bool, ∀ mo : Option ℚ, fireI d none mo = false) ∧
    (fireJ none = false) := by
  refine ⟨?_, ?_, ?_, ?_, ?_, ?_, ?_, ?_, ?_, ?_, ?_, rfl⟩
  · intro tv tvm tc tOp h
    cases tv <;> cases tvm <;> cases tc <;> cases tOp <;> simp [fireA, ogt] <;> simp at h
  · intro a b c d h
    cases a <;> cases b <;> cases c <;> cases d <;> simp [fireB] <;> simp at h
  · intro t y tc tOp h
    cases t <;> cases y <;> cases tc <;> cases tOp <;> simp [fireC, ogt] <;> simp at h
  · intro a b c d h
    cases a <;> cases b <;> cases c <;> cases d <;> simp [fireD] <;> simp at h
  · intro t y tc tOp h
    cases t <;> cases y <;> cases tc <;> cases tOp <;> simp [fireE, ogt] <;> simp at h
  · intro tc tb h
    cases tc <;> cases tb <;> simp [fireF] <;> simp at h
  · intro tc tb h
    cases tc <;> cases tb <;> simp [fireF] <;> simp at h
  · intro th tl tc tOp yc h
    cases th <;> cases tl <;> cases tc <;> cases tOp <;> cases yc <;>
      simp [fireG, ogt, oge, osub, oabs, odiv] <;> simp at h
  · intro d ro
    cases ro <;> simp [fireH]
  · intro ws
    simp [priceDiverging]
  · intro d mo
    cases mo <;> simp [fireI]

/-- Witness for C1 amended: an undefined today Volume yields no
volume-breakout match at concrete values. -/
theorem C1_amended_witness : fireA none (some 1) (some 1) (some 1) = false :=
  C1_amended.1 none (some 1) (some 1) (some 1) (Or.inl rfl)

/-- Close series for the C1 counterexample: flat at 100, one drop to 90,
one rise to 91, then a final drop to 89; the drop leaves the 14-period
window before the last-but-one index, so yesterday has no average loss. -/
def exC1close : List ℚ :=
  [100, 100, 100, 100, 90, 90, 90, 90, 90, 90, 91, 91, 91, 91, 91, 91, 91, 91, 91, 89]

/-- Unit volume for the C1 counterexample frame. -/
def exC1vol : List ℚ := [1, 1, 1, 1, 1, 1, 1, 1, 1, 1, 1, 1, 1, 1, 1, 1, 1, 1, 1, 1]

/-- The C1 counterexample frame: twenty rows, all five columns present,
High and Low flattened onto Close. -/
def exC1df : RawDF :=
  { nrows := 20, colOpen := some exC1close, colHigh := some exC1close,
    colLow := some exC1close, colClose := some exC1close, colVolume := some exC1vol }

/-- Claim C1 is false of the source: on this twenty-row frame the RSI
value at the last-but-one row (yesterday) is undefined, yet the RSI
bullish-divergence rule H — whose condition reads yesterday Close inside
the lookback-window minimum of Closes and yesterday RSI inside the
lookback-window minimum of RSI values — still produces a match, because
the pandas minimum skips NaN entries instead of short-circuiting the
rule to no match. -/
theorem C1_counterexample :
    (analyze_stock exC1df [Strategy.H]).1 = [Strategy.H] ∧ RSIat exC1close 18 = none := by
  have h14 : RSIat exC1close 14 = some (100 / 11) := by
    norm_num [RSIat, rsAt, strictMeanAt, windowAt, gains, losses, mean, exC1close, List.zipWith]
  have h15 : RSIat exC1close 15 = some (100 / 11) := by
    norm_num [RSIat, rsAt, strictMeanAt, windowAt, gains, losses, mean, exC1close, List.zipWith]
  have h16 : RSIat exC1close 16 = some (100 / 11) := by
    norm_num [RSIat, rsAt, strictMeanAt, windowAt, gains, losses, mean, exC1close, List.zipWith]
  have h17 : RSIat exC1close 17 = some (100 / 11) := by
    norm_num [RSIat, rsAt, strictMeanAt, windowAt, gains, losses, mean, exC1close, List.zipWith]
  have h18 : RSIat exC1close 18 = none := by
    norm_num [RSIat, rsAt, strictMeanAt, windowAt, gains, losses, mean, exC1close, List.zipWith]
  have h19 : RSIat exC1close 19 = some (100 / 3) := by
    norm_num [RSIat, rsAt, strictMeanAt, windowAt, gains, losses, mean, exC1close, List.zipWith]
  have hidx : recentIdxs 20 = [14, 15, 16, 17, 18] := by
    norm_num [recentIdxs, List.range_succ]
  have hc14 : listCol exC1close 14 = some 91 := by norm_num [listCol, exC1close]
  have hc15 : listCol exC1close 15 = some 91 := by norm_num [listCol, exC1close]
  have hc16 : listCol exC1close 16 = some 91 := by norm_num [listCol, exC1close]
  have hc17 : listCol exC1close 17 = some 91 := by norm_num [listCol, exC1close]
  have hc18 : listCol exC1close 18 = some 91 := by norm_num [listCol, exC1close]
  have hc19 : listCol exC1close 19 = some 89 := by norm_num [listCol, exC1close]
  have hsA : Strategy.A ≠ Strategy.H := by decide
  have hsB : Strategy.B ≠ Strategy.H := by decide
  have hsC : Strategy.C ≠ Strategy.H := by decide
  have hsD : Strategy.D ≠ Strategy.H := by decide
  have hsE : Strategy.E ≠ Strategy.H := by decide
  have hsF : Strategy.F ≠ Strategy.H := by decide
  have hsG : Strategy.G ≠ Strategy.H := by decide
  have hsI : Strategy.I ≠ Strategy.H := by decide
  have hsJ : Strategy.J ≠ Strategy.H := by decide
  refine ⟨?_, h18⟩
  rw [analyze_stock]
  norm_num [calculate_indicators, exC1df, rules, selB, getCol, recentIdxs, hidx,
    skipnaMin, priceDiverging, fireH, olt, h14, h15, h16, h17, h18, h19,
    hc14, hc15, hc16, hc17, hc18, hc19, List.range_succ, List.filterMap,
    hsA, hsB, hsC, hsD, hsE, hsF, hsG, hsI, hsJ]

/-- The frame used for rule evaluation keeps the row count of the input
frame, whether indicator computation succeeded or fell back to the raw
copy. -/
theorem analyzedOf_nrows (df : RawDF) :
    ((calculate_indicators df).getD (rawAnalyzed df)).nrows = df.nrows := by
  rcases hc : df.colClose with _ | c <;> rcases hh : df.colHigh with _ | hi <;>
    rcases hl : df.colLow with _ | lo <;> rcases hv : df.colVolume with _ | vo <;>
      simp [calculate_indicators, rawAnalyzed, hc, hh, hl, hv]

/-- Open column of the C2 counterexample frame. -/
def exC2open : List ℚ := [100, 100, 100, 100, 100, 100]

/-- High column of the C2 counterexample frame. -/
def exC2high : List ℚ := [100, 100, 100, 100, 100, 111]

/-- Low column of the C2 counterexample frame. -/
def exC2low : List ℚ := [100, 100, 100, 100, 100, 101]

/-- Close column of the C2 counterexample frame. -/
def exC2close : List ℚ := [100, 100, 100, 100, 100, 110]

/-- The C2 counterexample frame: six rows with a Close column but no
Volume column, so indicator computation fails; the last bar is a long
bullish candle. -/
def exC2df : RawDF :=
  { nrows := 6, colOpen := some exC2open, colHigh := some exC2high,
    colLow := some exC2low, colClose := some exC2close, colVolume := none }

/-- Claim C2 is false of the source: when indicator computation fails
(here the Volume column is missing), `analyze_stock` does not return an
empty match list with a null frame — it substitutes a copy of the raw
frame, evaluates the rules on it, and the candle-shape rule G still
produces a match; the returned frame is the non-null raw copy. -/
theorem C2_counterexample :
    calculate_indicators exC2df = none ∧
    (analyze_stock exC2df [Strategy.G]).1 = [Strategy.G] ∧
    (analyze_stock exC2df [Strategy.G]).2 = some (rawAnalyzed exC2df) := by
  have hsA : Strategy.A ≠ Strategy.G := by decide
  have hsB : Strategy.B ≠ Strategy.G := by decide
  have hsC : Strategy.C ≠ Strategy.G := by decide
  have hsD : Strategy.D ≠ Strategy.G := by decide
  have hsE : Strategy.E ≠ Strategy.G := by decide
  have hsF : Strategy.F ≠ Strategy.G := by decide
  have hsH : Strategy.H ≠ Strategy.G := by decide
  have hsI : Strategy.I ≠ Strategy.G := by decide
  have hsJ : Strategy.J ≠ Strategy.G := by decide
  have hfail : calculate_indicators exC2df = none := by
    simp [calculate_indicators, exC2df]
  have hrules : rules (rawAnalyzed exC2df) [Strategy.G] = [Strategy.G] := by
    norm_num [rules, rawAnalyzed, exC2df, selB, getCol, listCol,
      fireG, ogt, oge, osub, oabs, odiv, exC2open, exC2high, exC2low, exC2close,
      hsA, hsB, hsC, hsD, hsE, hsF, hsH, hsI, hsJ, priceDiverging, skipnaMin,
      recentIdxs, List.range_succ, List.filterMap]
  refine ⟨hfail, ?_, ?_⟩
  · rw [analyze_stock]
    norm_num [hfail, hrules, show exC2df.nrows = 6 from rfl,
      show exC2df.colClose = some exC2close from rfl,
      show (rawAnalyzed exC2df).nrows = 6 from rfl]
  · rw [analyze_stock]
    norm_num [hfail, show exC2df.nrows = 6 from rfl,
      show exC2df.colClose = some exC2close from rfl,
      show (rawAnalyzed exC2df).nrows = 6 from rfl]

/-- Claim C2 amended: when indicator computation fails on a validated
frame, `analyze_stock` substitutes a copy of the raw frame (never a null
one), and for histories of six or more rows it evaluates the selected
rules against that raw copy — rules whose derived columns are absent
cannot fire, but the candle-shape rule can, as the counterexample shows. -/
theorem C2_amended (df : RawDF) (sel : List Strategy) (h2 : 2 ≤ df.nrows)
    (hc : df.colClose.isSome = true) (hfail : calculate_indicators df = none) :
    analyze_stock df sel =
      ((if df.nrows < 6 then [] else rules (rawAnalyzed df) sel), some (rawAnalyzed df)) := by
  obtain ⟨cl, hcl⟩ := Option.isSome_iff_exists.mp hc
  have hnot2 : ¬ df.nrows < 2 := by omega
  rw [analyze_stock]
  simp only [hfail, Option.getD_none, hcl, Option.isNone_some, Bool.or_false]
  have hr : (rawAnalyzed df).nrows = df.nrows := rfl
  by_cases h6 : df.nrows < 6 <;> simp [hnot2, hr, h6]

/-- Witness for C2 amended at the concrete failing frame. -/
theorem C2_amended_witness :
    analyze_stock exC2df [Strategy.G] =
      ((if exC2df.nrows < 6 then [] else rules (rawAnalyzed exC2df) [Strategy.G]),
        some (rawAnalyzed exC2df)) :=
  C2_amended exC2df [Strategy.G] (by norm_num [exC2df]) (by rfl)
    (by simp [calculate_indicators, exC2df])

/-- Claim C10: a validated history of at least two but fewer than six
rows short-circuits `analyze_stock` to an empty match list and the
non-null analyzed frame, before any rule is evaluated — whatever rules
are selected. -/
theorem C10_short_history (df : RawDF) (sel : List Strategy) (h2 : 2 ≤ df.nrows)
    (h6 : df.nrows < 6) (hc : df.colClose.isSome = true) :
    (analyze_stock df sel).1 = [] ∧ ((analyze_stock df sel).2).isSome = true := by
  obtain ⟨cl, hcl⟩ := Option.isSome_iff_exists.mp hc
  have hnot2 : ¬ df.nrows < 2 := by omega
  have hn := analyzedOf_nrows df
  rw [analyze_stock]
  simp only [hcl, Option.isNone_some, Bool.or_false]
  simp [hnot2, hn, h6]

/-- Three-row frame for the C10 witness. -/
def exC10df : RawDF :=
  { nrows := 3, colOpen := some [1, 2, 3], colHigh := some [2, 3, 4],
    colLow := some [1, 1, 1], colClose := some [1, 2, 3], colVolume := some [1, 1, 1] }

/-- Witness for C10 at a concrete three-row frame with every rule
selected. -/
theorem C10_short_history_witness :
    (analyze_stock exC10df [Strategy.A, Strategy.B, Strategy.C, Strategy.D, Strategy.E,
      Strategy.F, Strategy.G, Strategy.H, Strategy.I, Strategy.J]).1 = [] ∧
    ((analyze_stock exC10df [Strategy.A, Strategy.B, Strategy.C, Strategy.D, Strategy.E,
      Strategy.F, Strategy.G, Strategy.H, Strategy.I, Strategy.J]).2).isSome = true :=
  C10_short_history exC10df _ (by norm_num [exC10df]) (by norm_num [exC10df]) (by rfl)

/-- The exponential moving average keeps the series length. -/
theorem ewmList_length (a : ℚ) (xs : List ℚ) : (ewmList a xs).length = xs.length := by
  cases xs <;> simp [ewmList, List.length_scanl]

/-- The MACD line keeps the Close series length. -/
theorem MACDlist_length (c : List ℚ) : (MACDlist c).length = c.length := by
  simp [MACDlist, ewmList_length]

/-- The MACD signal line keeps the Close series length. -/
theorem MACDsignalList_length (c : List ℚ) : (MACDsignalList c).length = c.length := by
  simp [MACDsignalList, MACDlist_length, ewmList_length]

/-- All rational-valued cell columns of an analyzed frame (raw and
derived). -/
def QColumnsOf (da : AnalyzedDF) : List (Nat → Option ℚ) :=
  [getCol da.cOpen, getCol da.cHigh, getCol da.cLow, getCol da.cClose, getCol da.cVolume,
   getCol da.cMA5, getCol da.cMA20, getCol da.cMA60, getCol da.cMA120,
   getCol da.cRSI, getCol da.cMFI, getCol da.cMACD, getCol da.cMACDSignal,
   getCol da.cBBMid, getCol da.cVolMA20, getCol da.cDisparity]

/-- The real-valued cell columns of an analyzed frame (the Bollinger
bands). -/
def RColumnsOf (da : AnalyzedDF) : List (Nat → Option ℝ) :=
  [getCol da.cBBUpper, getCol da.cBBLower]

/-- The frame contains the given column: some rational column agrees with
it everywhere, or some real-valued column agrees with its cast everywhere. -/
def containsColumn (da : AnalyzedDF) (g : Nat → Option ℚ) : Prop :=
  (∃ f ∈ QColumnsOf da, ∀ i, f i = g i) ∨
    (∃ fr ∈ RColumnsOf da, ∀ i, fr i = (g i).map (fun q => (q : ℝ)))

/-- Modelled from the spec (the source computes no such column): the
252-period rolling high, the rolling max of High over a 252-period
trailing window, undefined until 252 points exist. -/
def spec_rolling_high (w : Nat) (xs : List ℚ) (i : Nat) : Option ℚ :=
  if w ≤ i + 1 ∧ i < xs.length then
    match windowAt w xs i with
    | [] => none
    | x :: t => some (t.foldl max x)
  else none

/-- Modelled from the spec (the source computes no such column): the
252-period rolling low, the rolling min of Low over a 252-period trailing
window, undefined until 252 points exist. -/
def spec_rolling_low (w : Nat) (xs : List ℚ) (i : Nat) : Option ℚ :=
  if w ≤ i + 1 ∧ i < xs.length then
    match windowAt w xs i with
    | [] => none
    | x :: t => some (t.foldl min x)
  else none

/-- Close series for the C4 counterexample: alternating 10 and 11, so
that the RSI and MFI at the last index are defined. -/
def exC4close : List ℚ :=
  [10, 11, 10, 11, 10, 11, 10, 11, 10, 11, 10, 11, 10, 11, 10, 11, 10, 11, 10, 11]

/-- The C4 counterexample frame: twenty rows, all columns present, High
and Low flattened onto Close, unit Volume. -/
def exC4df : RawDF :=
  { nrows := 20, colOpen := some exC4close, colHigh := some exC4close,
    colLow := some exC4close, colClose := some exC4close, colVolume := some exC1vol }

set_option maxHeartbeats 1600000 in
/-- Claim C4 is false of the source: the enriched frame of this concrete
twenty-row input contains no column that agrees with the 252-period
rolling high of its High column — the spec-described column is undefined
at index 19 (fewer than 252 points exist), while every column the engine
actually produces is defined at index 19. -/
theorem C4_counterexample :
    ¬ containsColumn ((calculate_indicators exC4df).getD (rawAnalyzed exC4df))
      (spec_rolling_high 252 exC4close) := by
  have hspec : spec_rolling_high 252 exC4close 19 = none := by
    norm_num [spec_rolling_high, exC4close]
  intro hcol
  rcases hcol with ⟨f, hf, hagree⟩ | ⟨fr, hfr, hagree⟩
  · have h19 := hagree 19
    rw [hspec] at h19
    simp only [QColumnsOf, List.mem_cons, List.not_mem_nil, or_false] at hf
    rcases hf with rfl | rfl | rfl | rfl | rfl | rfl | rfl | rfl | rfl | rfl | rfl | rfl | rfl | rfl | rfl | rfl
    · simp [calculate_indicators, exC4df, getCol, listCol, exC4close] at h19
    · simp [calculate_indicators, exC4df, getCol, listCol, exC4close] at h19
    · simp [calculate_indicators, exC4df, getCol, listCol, exC4close] at h19
    · simp [calculate_indicators, exC4df, getCol, listCol, exC4close] at h19
    · simp [calculate_indicators, exC4df, getCol, listCol, exC1vol] at h19
    · simp [calculate_indicators, exC4df, getCol, safe_rolling_mean, exC4close] at h19
    · simp [calculate_indicators, exC4df, getCol, safe_rolling_mean, exC4close] at h19
    · simp [calculate_indicators, exC4df, getCol, safe_rolling_mean, exC4close] at h19
    · simp [calculate_indicators, exC4df, getCol, safe_rolling_mean, exC4close] at h19
    · norm_num [calculate_indicators, exC4df, getCol, RSIat, rsAt, strictMeanAt,
        windowAt, gains, losses, mean, exC4close, List.zipWith] at h19
      exact Option.noConfusion h19
    · norm_num [calculate_indicators, exC4df, getCol, MFIat, moneyRatioAt, posSumAt,
        negSumAt, strictSumAt, windowAt, posflows, negflows, tps, mfs, exC4close,
        exC1vol, List.zipWith] at h19
      exact Option.noConfusion h19
    · simp [calculate_indicators, exC4df, getCol, MACDlist_length, exC4close] at h19
    · simp [calculate_indicators, exC4df, getCol, MACDsignalList_length, exC4close] at h19
    · simp [calculate_indicators, exC4df, getCol, safe_rolling_mean, exC4close] at h19
    · simp [calculate_indicators, exC4df, getCol, safe_rolling_mean, exC1vol] at h19
    · norm_num [calculate_indicators, exC4df, getCol, DisparityAt, safe_rolling_mean,
        windowAt, mean, exC4close] at h19
      exact Option.noConfusion h19
  · have h19 := hagree 19
    rw [hspec] at h19
    simp only [RColumnsOf, List.mem_cons, List.not_mem_nil, or_false] at hfr
    rcases hfr with rfl | rfl
    · simp [calculate_indicators, exC4df, getCol, BBUpperAt, safe_rolling_mean, exC4close] at h19
    · simp [calculate_indicators, exC4df, getCol, BBLowerAt, safe_rolling_mean, exC4close] at h19

/-- Claim C4 amended: the derived columns the Indicator Engine adds are
exactly MA5, MA20, MA60, MA120, RSI, MFI, MACD, MACD signal, Bollinger
mid/upper/lower, 20-period volume moving average and disparity, each
computed by the corresponding definition; no 252-period rolling high/low
columns are produced (the analyzed-frame type has no other derived
fields, and the counterexample shows no produced column computes them). -/
theorem C4_amended (df : RawDF) (c h l v : List ℚ) (hc : df.colClose = some c)
    (hh : df.colHigh = some h) (hl : df.colLow = some l) (hv : df.colVolume = some v) :
    ∃ da, calculate_indicators df = some da ∧
      da.cMA5 = some (fun i => safe_rolling_mean c 5 i) ∧
      da.cMA20 = some (fun i => safe_rolling_mean c 20 i) ∧
      da.cMA60 = some (fun i => safe_rolling_mean c 60 i) ∧
      da.cMA120 = some (fun i => safe_rolling_mean c 120 i) ∧
      da.cRSI = some (fun i => RSIat c i) ∧
      da.cMFI = some (fun i => MFIat h l c v i) ∧
      da.cMACD = some (fun i => (MACDlist c).get? i) ∧
      da.cMACDSignal = some (fun i => (MACDsignalList c).get? i) ∧
      da.cBBMid = some (fun i => safe_rolling_mean c 20 i) ∧
      da.cBBUpper = some (fun i => BBUpperAt c i) ∧
      da.cBBLower = some (fun i => BBLowerAt c i) ∧
      da.cVolMA20 = some (fun i => safe_rolling_mean v 20 i) ∧
      da.cDisparity = some (fun i => DisparityAt c i) := by
  refine ⟨{ nrows := df.nrows
            cOpen := df.colOpen.map listCol
            cHigh := some (listCol h), cLow := some (listCol l)
            cClose := some (listCol c), cVolume := some (listCol v)
            cMA5 := some (fun i => safe_rolling_mean c 5 i)
            cMA20 := some (fun i => safe_rolling_mean c 20 i)
            cMA60 := some (fun i => safe_rolling_mean c 60 i)
            cMA120 := some (fun i => safe_rolling_mean c 120 i)
            cRSI := some (fun i => RSIat c i)
            cMFI := some (fun i => MFIat h l c v i)
            cMACD := some (fun i => (MACDlist c).get? i)
            cMACDSignal := some (fun i => (MACDsignalList c).get? i)
            cBBMid := some (fun i => safe_rolling_mean c 20 i)
            cBBUpper := some (fun i => BBUpperAt c i)
            cBBLower := some (fun i => BBLowerAt c i)
            cVolMA20 := some (fun i => safe_rolling_mean v 20 i)
            cDisparity := some (fun i => DisparityAt c i) },
    ?_, rfl, rfl, rfl, rfl, rfl, rfl, rfl, rfl, rfl, rfl, rfl, rfl, rfl⟩
  simp [calculate_indicators, hc, hh, hl, hv]

/-- Witness for C4 amended at the concrete twenty-row frame. -/
theorem C4_amended_witness :
    ∃ da, calculate_indicators exC4df = some da ∧
      da.cMA5 = some (fun i => safe_rolling_mean exC4close 5 i) ∧
      da.cMA20 = some (fun i => safe_rolling_mean exC4close 20 i) ∧
      da.cMA60 = some (fun i => safe_rolling_mean exC4close 60 i) ∧
      da.cMA120 = some (fun i => safe_rolling_mean exC4close 120 i) ∧
      da.cRSI = some (fun i => RSIat exC4close i) ∧
      da.cMFI = some (fun i => MFIat exC4close exC4close exC4close exC1vol i) ∧
      da.cMACD = some (fun i => (MACDlist exC4close).get? i) ∧
      da.cMACDSignal = some (fun i => (MACDsignalList exC4close).get? i) ∧
      da.cBBMid = some (fun i => safe_rolling_mean exC4close 20 i) ∧
      da.cBBUpper = some (fun i => BBUpperAt exC4close i) ∧
      da.cBBLower = some (fun i => BBLowerAt exC4close i) ∧
      da.cVolMA20 = some (fun i => safe_rolling_mean exC1vol 20 i) ∧
      da.cDisparity = some (fun i => DisparityAt exC4close i) :=
  C4_amended exC4df exC4close exC4close exC4close exC1vol rfl rfl rfl rfl

/-- The positive and negative money-flow series have the same length. -/
theorem posflows_length_eq_negflows (high low close vol : List ℚ) :
    (posflows high low close vol).length = (negflows high low close vol).length := by
  simp [posflows, negflows]

/-- Claim C7: whenever the 14-period negative money-flow sum is exactly
zero, the `replace(0, nan)` divisor makes the money ratio undefined and
the MFI undefined at that index (the computation is total, so no
exception is raised), and the MFI oversold-rebound rule reports no match
when either oscillator value read by it is undefined. -/
theorem C7_mfi_zero_negative_flow :
    (∀ high low close vol : List ℚ, ∀ i : Nat,
      negSumAt high low close vol i = some 0 →
        moneyRatioAt high low close vol i = none ∧ MFIat high low close vol i = none) ∧
    (∀ t y tc tOp : Option ℚ, t = none ∨ y = none → fireE t y tc tOp = false) := by
  constructor
  · intro high low close vol i h
    obtain ⟨s, hs⟩ : ∃ s, strictSumAt 14 (negflows high low close vol) i = some s := by
      rcases hne : strictSumAt 14 (negflows high low close vol) i with _ | s
      · rw [negSumAt, hne] at h; exact Option.noConfusion h
      · exact ⟨s, rfl⟩
    have habs : |s| = 0 := by
      rw [negSumAt, hs] at h
      simpa using h
    have hcond : 14 ≤ i + 1 ∧ i < (negflows high low close vol).length := by
      by_contra hcc
      rw [strictSumAt, if_neg hcc] at hs
      exact Option.noConfusion hs
    have hp : posSumAt high low close vol i =
        some (windowAt 14 (posflows high low close vol) i).sum := by
      rw [posSumAt, strictSumAt,
        if_pos ⟨hcond.1, (posflows_length_eq_negflows high low close vol) ▸ hcond.2⟩]
    have hn0 : negSumAt high low close vol i = some 0 := h
    have hratio : moneyRatioAt high low close vol i = none := by
      simp [moneyRatioAt, hp, hn0]
    exact ⟨hratio, by simp [MFIat, hratio]⟩
  · intro t y tc tOp h
    cases t <;> cases y <;> simp [fireE, ogt] <;> simp at h

/-- The sample variance of a constant window is zero. -/
theorem svar_of_const (l : List ℚ) (k : ℚ) (hk : ∀ x ∈ l, x = k) : svar l = 0 := by
  rcases l with _ | ⟨x, t⟩
  · simp [svar]
  · have hmean : mean (x :: t) = k := by
      have hsum : (x :: t).sum = (x :: t).length • k := List.sum_eq_card_nsmul _ _ hk
      rw [mean, hsum, nsmul_eq_mul]
      have hlen : ((x :: t).length : ℚ) ≠ 0 := Nat.cast_ne_zero.mpr (by simp)
      field_simp
    have hzero : (List.map (fun y => (y - mean (x :: t)) ^ 2) (x :: t)).sum = 0 := by
      apply List.sum_eq_zero
      intro y hy
      obtain ⟨z, hz, rfl⟩ := List.mem_map.mp hy
      rw [hmean, hk z hz]
      ring
    rw [svar, hzero, zero_div]

/-- Claim C8: wherever the Bollinger mid band (MA20) is defined, both
bands are defined — the `fillna(0)` turns the undefined standard
deviation into zero — the standard deviation is nonnegative, so
upper = mid + 2 sigma is at least mid and lower = mid - 2 sigma at most
mid, and on a constant-Close window both bands collapse to exactly the
mid. -/
theorem C8_bollinger (c : List ℚ) (i : Nat) (m : ℚ)
    (hm : safe_rolling_mean c 20 i = some m) :
    BBUpperAt c i = some ((m : ℝ) + bbStdAt c i * 2) ∧
    BBLowerAt c i = some ((m : ℝ) - bbStdAt c i * 2) ∧
    0 ≤ bbStdAt c i ∧
    (bbVarAt c i = none → bbStdAt c i = 0) ∧
    ((∀ x ∈ windowAt 20 c i, x = m) → bbStdAt c i = 0 ∧
      BBUpperAt c i = some ((m : ℚ) : ℝ) ∧ BBLowerAt c i = some ((m : ℚ) : ℝ)) := by
  have hup : BBUpperAt c i = some ((m : ℝ) + bbStdAt c i * 2) := by
    simp [BBUpperAt, hm]
  have hlo : BBLowerAt c i = some ((m : ℝ) - bbStdAt c i * 2) := by
    simp [BBLowerAt, hm]
  have hnn : 0 ≤ bbStdAt c i := by
    rw [bbStdAt, safe_rolling_std]
    rcases hv : bbVarAt c i with _ | v
    · simp
    · simp only [Option.map_some', Option.getD_some]
      exact Real.sqrt_nonneg _
  have hfill : bbVarAt c i = none → bbStdAt c i = 0 := by
    intro hv
    simp [bbStdAt, safe_rolling_std, hv]
  refine ⟨hup, hlo, hnn, hfill, ?_⟩
  intro hconst
  have hstd0 : bbStdAt c i = 0 := by
    rw [bbStdAt, safe_rolling_std]
    rcases hv : bbVarAt c i with _ | v
    · simp
    · have hv0 : v = 0 := by
        rw [bbVarAt] at hv
        split_ifs at hv with hcnd
        · have : svar (windowAt 20 c i) = v := by injection hv
          rw [← this]
          exact svar_of_const _ m hconst
      rw [hv0]
      simp [Real.sqrt_zero]
  refine ⟨hstd0, ?_, ?_⟩
  · rw [hup, hstd0]; norm_num
  · rw [hlo, hstd0]; norm_num

/-- Every element of a zipWith comes from a pair of elements of the two
lists. -/
theorem mem_zipWith {α β γ : Type} (f : α → β → γ) :
    ∀ (as : List α) (bs : List β) (c : γ), c ∈ List.zipWith f as bs →
      ∃ a b, a ∈ as ∧ b ∈ bs ∧ c = f a b := by
  intro as
  induction as with
  | nil => intro bs c hc; simp at hc
  | cons a tl ih =>
    intro bs c hc
    cases bs with
    | nil => simp at hc
    | cons b bt =>
      simp only [List.zipWith_cons_cons, List.mem_cons] at hc
      rcases hc with rfl | hc
      · exact ⟨a, b, by simp, by simp, rfl⟩
      · obtain ⟨a2, b2, ha, hb, rfl⟩ := ih bt c hc
        exact ⟨a2, b2, by simp [ha], by simp [hb], rfl⟩

/-- A trailing window is a sublist of its series. -/
theorem windowAt_subset (w : Nat) (xs : List ℚ) (i : Nat) : windowAt w xs i ⊆ xs :=
  (List.drop_subset _ _).trans (List.take_subset _ _)

/-- The mean of nonnegative values is nonnegative. -/
theorem mean_nonneg (l : List ℚ) (h : ∀ x ∈ l, 0 ≤ x) : 0 ≤ mean l :=
  div_nonneg (List.sum_nonneg h) (Nat.cast_nonneg _)

/-- Every entry of the gain series is nonnegative. -/
theorem gains_nonneg (c : List ℚ) : ∀ x ∈ gains c, 0 ≤ x := by
  intro x hx
  rcases List.mem_cons.mp hx with rfl | hx2
  · exact le_refl 0
  · obtain ⟨a, b, _, _, rfl⟩ := mem_zipWith _ _ _ _ hx2
    split
    · linarith
    · exact le_refl 0

/-- Every entry of the loss series is nonnegative. -/
theorem losses_nonneg (c : List ℚ) : ∀ x ∈ losses c, 0 ≤ x := by
  intro x hx
  rcases List.mem_cons.mp hx with rfl | hx2
  · exact le_refl 0
  · obtain ⟨a, b, _, _, rfl⟩ := mem_zipWith _ _ _ _ hx2
    split
    · linarith
    · exact le_refl 0

/-- The oscillator transfer function 100 - 100/(1+r) maps nonnegative
ratios into the band from 0 to 100. -/
theorem oscBound (r : ℚ) (hr : 0 ≤ r) :
    0 ≤ 100 - 100 / (1 + r) ∧ 100 - 100 / (1 + r) ≤ 100 := by
  have h1 : 0 < 1 + r := by linarith
  constructor
  · have h2 : 100 / (1 + r) ≤ 100 := by
      rw [div_le_iff₀ h1]; nlinarith
    linarith
  · have h2 : 0 ≤ 100 / (1 + r) := by positivity
    linarith

/-- A defined strict rolling mean of a nonnegative series is nonnegative. -/
theorem strictMeanAt_nonneg (w : Nat) (xs : List ℚ) (i : Nat) (g : ℚ)
    (hall : ∀ x ∈ xs, 0 ≤ x) (h : strictMeanAt w xs i = some g) : 0 ≤ g := by
  rw [strictMeanAt] at h
  split_ifs at h with hcnd
  obtain rfl : mean (windowAt w xs i) = g := by injection h
  exact mean_nonneg _ (fun x hx => hall x (windowAt_subset w xs i hx))

/-- Claim C9: whenever the RSI value is defined it lies in the closed
interval from 0 to 100, and whenever the MFI value is defined it lies in
the same interval — for MFI under the data-model constraint that the
OHLCV inputs are nonnegative. -/
theorem C9_oscillator_bounds :
    (∀ c : List ℚ, ∀ i : Nat, ∀ x : ℚ, RSIat c i = some x → 0 ≤ x ∧ x ≤ 100) ∧
    (∀ high low close vol : List ℚ, (∀ y ∈ high, 0 ≤ y) → (∀ y ∈ low, 0 ≤ y) →
      (∀ y ∈ close, 0 ≤ y) → (∀ y ∈ vol, 0 ≤ y) →
      ∀ i : Nat, ∀ x : ℚ, MFIat high low close vol i = some x → 0 ≤ x ∧ x ≤ 100) := by
  constructor
  · intro c i x hx
    rw [RSIat] at hx
    rcases hrs : rsAt c i with _ | r
    · rw [hrs] at hx; exact Option.noConfusion hx
    rw [hrs] at hx
    obtain rfl : 100 - 100 / (1 + r) = x := by
      simpa using hx
    have hr : 0 ≤ r := by
      rw [rsAt] at hrs
      rcases hg : strictMeanAt 14 (gains c) i with _ | g
      · rw [hg] at hrs; exact Option.noConfusion hrs
      rcases hl : strictMeanAt 14 (losses c) i with _ | l
      · rw [hg, hl] at hrs; exact Option.noConfusion hrs
      rw [hg, hl] at hrs
      by_cases hlz : l = 0
      · simp [hlz] at hrs
      · simp only [hlz, if_false] at hrs
        obtain rfl : g / l = r := by simpa using hrs
        have hgnn : 0 ≤ g := strictMeanAt_nonneg 14 (gains c) i g (gains_nonneg c) hg
        have hlnn : 0 ≤ l := strictMeanAt_nonneg 14 (losses c) i l (losses_nonneg c) hl
        positivity
    exact oscBound r hr
  · intro high low close vol hh hl2 hc hv i x hx
    have htp : ∀ t ∈ tps high low close, 0 ≤ t := by
      intro t ht
      obtain ⟨hl, cc, hhl, hcc, rfl⟩ := mem_zipWith _ _ _ _ ht
      obtain ⟨h1, h2⟩ := List.of_mem_zip hhl
      have := hh _ h1
      have := hl2 _ h2
      have := hc _ hcc
      linarith
    have hmf : ∀ m ∈ mfs high low close vol, 0 ≤ m := by
      intro m hm
      obtain ⟨t, v, ht, hvv, rfl⟩ := mem_zipWith _ _ _ _ hm
      exact mul_nonneg (htp _ ht) (hv _ hvv)
    have hpos : ∀ p ∈ posflows high low close vol, 0 ≤ p := by
      intro p hp
      rcases List.mem_cons.mp hp with rfl | hp2
      · exact le_refl 0
      · obtain ⟨prev, pm, _, hpm, rfl⟩ := mem_zipWith _ _ _ _ hp2
        have hpm2 : pm ∈ (tps high low close).zip (mfs high low close vol) :=
          List.tail_subset _ hpm
        have := hmf pm.2 (List.of_mem_zip hpm2).2
        split
        · exact this
        · exact le_refl 0
    rw [MFIat] at hx
    rcases hr : moneyRatioAt high low close vol i with _ | r
    · rw [hr] at hx; exact Option.noConfusion hx
    rw [hr] at hx
    obtain rfl : 100 - 100 / (1 + r) = x := by simpa using hx
    have hrnn : 0 ≤ r := by
      rw [moneyRatioAt] at hr
      rcases hp : posSumAt high low close vol i with _ | p
      · rw [hp] at hr; exact Option.noConfusion hr
      rcases hn : negSumAt high low close vol i with _ | n
      · rw [hp, hn] at hr; exact Option.noConfusion hr
      rw [hp, hn] at hr
      by_cases hnz : n = 0
      · simp [hnz] at hr
      · simp only [hnz, if_false] at hr
        obtain rfl : p / n = r := by simpa using hr
        have hpnn : 0 ≤ p := by
          rw [posSumAt, strictSumAt] at hp
          split_ifs at hp with hcnd
          obtain rfl : (windowAt 14 (posflows high low close vol) i).sum = p := by
            injection hp
          exact List.sum_nonneg (fun y hy => hpos y (windowAt_subset _ _ _ hy))
        have hnnn : 0 ≤ n := by
          rw [negSumAt] at hn
          rcases hs : strictSumAt 14 (negflows high low close vol) i with _ | s
          · rw [hs] at hn; exact Option.noConfusion hn
          · rw [hs] at hn
            obtain rfl : |s| = n := by simpa using hn
            exact abs_nonneg s
        positivity
    exact oscBound r hrnn

/-- Close series for the C7 witness: strictly increasing, so the typical
price never falls and every negative money flow is zero. -/
def exC7close : List ℚ := [1, 2, 3, 4, 5, 6, 7, 8, 9, 10, 11, 12, 13, 14, 15]

/-- Volume for the C7 witness, with the single zero-Volume bar of the
spec scenario. -/
def exC7vol : List ℚ := [1, 1, 1, 1, 1, 1, 1, 0, 1, 1, 1, 1, 1, 1, 1]

/-- Witness for C7: the zero negative-flow sum at index 14 gives an
undefined ratio and an undefined MFI, and an undefined today MFI gives
no oversold-rebound match. -/
theorem C7_mfi_zero_negative_flow_witness :
    negSumAt exC7close exC7close exC7close exC7vol 14 = some 0 ∧
    moneyRatioAt exC7close exC7close exC7close exC7vol 14 = none ∧
    MFIat exC7close exC7close exC7close exC7vol 14 = none ∧
    fireE none (some 10) (some 1) (some 0) = false := by
  have h : negSumAt exC7close exC7close exC7close exC7vol 14 = some 0 := by
    norm_num [negSumAt, strictSumAt, negflows, tps, mfs, windowAt,
      exC7close, exC7vol, List.zipWith]
  exact ⟨h, (C7_mfi_zero_negative_flow.1 _ _ _ _ 14 h).1,
    (C7_mfi_zero_negative_flow.1 _ _ _ _ 14 h).2,
    C7_mfi_zero_negative_flow.2 none (some 10) (some 1) (some 0) (Or.inl rfl)⟩

/-- Witness for C8 on a flat two-point series: both bands are defined and
equal the mid, and the standard deviation is nonnegative. -/
theorem C8_bollinger_witness :
    BBUpperAt [50, 50] 1 = some ((50 : ℚ) : ℝ) ∧
    BBLowerAt [50, 50] 1 = some ((50 : ℚ) : ℝ) ∧
    0 ≤ bbStdAt [50, 50] 1 := by
  have hm : safe_rolling_mean [50, 50] 20 1 = some 50 := by
    norm_num [safe_rolling_mean, windowAt, mean]
  have hconst : ∀ x ∈ windowAt 20 ([50, 50] : List ℚ) 1, x = 50 := by
    intro x hx
    simp [windowAt] at hx
    exact hx
  have h := C8_bollinger [50, 50] 1 50 hm
  exact ⟨(h.2.2.2.2 hconst).2.1, (h.2.2.2.2 hconst).2.2, h.2.2.1⟩

/-- Close series for the C9 witness: alternating 10 and 11. -/
def exC9close : List ℚ := [10, 11, 10, 11, 10, 11, 10, 11, 10, 11, 10, 11, 10, 11, 10]

/-- Witness for C9: the RSI at index 14 of the alternating series is
defined and the theorem places it between 0 and 100. -/
theorem C9_oscillator_bounds_witness :
    RSIat exC9close 14 = some 50 ∧ (0 : ℚ) ≤ 50 ∧ (50 : ℚ) ≤ 100 := by
  have h : RSIat exC9close 14 = some 50 := by
    norm_num [RSIat, rsAt, strictMeanAt, windowAt, gains, losses, mean,
      exC9close, List.zipWith]
  exact ⟨h, C9_oscillator_bounds.1 exC9close 14 50 h⟩
